import Mathlib

/-!
Verification development for the bounded format-template rendering engines
(`vsnprintf` variants) of the akuma repository.  Four near-identical C
implementations exist:

* `src/userspace/quickjs/quickjs/stubs.c`  (namespace `Qjs`)
* `src/userspace/doom/stubs/stubs.c`       (namespace `Doom`)
* `src/userspace/sqld/sqlite3/sqlite_stubs.c` (namespace `Sqlite`)
* `src/userspace/tcc/src/libc_stubs.c`     (namespace `Tcc`)

Each is embedded shallowly: the destination buffer is represented by the
*trace* of writes, a list of `(index, character)` pairs in the order the C
code stores them; the `va_list` is an explicit list of tagged argument
values (the spec's §9 recommendation, matching the well-typedness
precondition of §4.2); C strings are NUL-free `List Char` values, and
reading the terminator of the format string corresponds to reading past
the end of the list.  Integer arguments are modelled as unbounded `Int`
matching the declared C type of the call (no claim exercises overflow);
unsigned reinterpretation casts are modelled with explicit `% 2^w`.
Floating-point conversions (present only in the quickjs variant) are not
modelled: reaching one sets an `unmod` flag and stops the run, and every
theorem below stays on float-free templates.  A read past the format
string's NUL terminator (which the quickjs and sqlite variants perform on
a trailing directive) sets an `oob` flag and stops the run.
-/

/-- The NUL character. -/
def nulc : Char := Char.ofNat 0

/-- The space character. -/
def spc : Char := Char.ofNat 32

/-- A tagged variadic argument, as recommended by spec §9: the caller
builds an ordered sequence of typed values.  `str none` is a NULL
`char *` pointer; `str (some s)` points at the NUL-free character list
`s`.  `intPtr` is an `int *` destination (used only by the quickjs
variant's `%n`), identified by an opaque id. -/
inductive Arg : Type
  | int (v : Int)
  | str (s : Option (List Char))
  | ptr (v : Nat)
  | intPtr (id : Nat)
deriving DecidableEq, Repr

/-- `va_arg(ap, <integer type>)`: pull the next argument as an integer.
Ill-typed calls are undefined behaviour in C; the model consumes the
argument and yields 0. -/
def takeIntArg : List Arg → Int × List Arg
  | Arg.int v :: r => (v, r)
  | _ :: r => (0, r)
  | [] => (0, [])

/-- `va_arg(ap, const char *)`. Ill-typed calls yield a NULL pointer. -/
def takeStrArg : List Arg → Option (List Char) × List Arg
  | Arg.str s :: r => (s, r)
  | _ :: r => (none, r)
  | [] => (none, [])

/-- `va_arg(ap, void *)` interpreted as an address value. -/
def takePtrArg : List Arg → Nat × List Arg
  | Arg.ptr v :: r => (v, r)
  | _ :: r => (0, r)
  | [] => (0, [])

/-- `va_arg(ap, int *)` for `%n` (quickjs variant only). -/
def takeIntPtrArg : List Arg → Nat × List Arg
  | Arg.intPtr i :: r => (i, r)
  | _ :: r => (0, r)
  | [] => (0, [])

/-- Decimal digit character, as computed by `'0' + d`. -/
def decChar (d : Nat) : Char := Char.ofNat (48 + d)

/-- Digit in the table `"0123456789abcdef"`, equally the expression
`d < 10 ? '0' + d : 'a' + d - 10` used by the doom variant. -/
def digitLower (d : Nat) : Char :=
  if d < 10 then Char.ofNat (48 + d) else Char.ofNat (97 + d - 10)

/-- Digit in the table `"0123456789ABCDEF"`. -/
def digitUpper (d : Nat) : Char :=
  if d < 10 then Char.ofNat (48 + d) else Char.ofNat (65 + d - 10)

/-- Structural worker for the digit-extraction loop.  The first argument
is fuel bounding the digit count; `natDigitsRev` supplies `n + 1`, which
for the bases the code uses (10 and 16) always exceeds the number of
digits of `n`, so the fuel never runs out (`natDigitsRev_unfold` below
proves the loop's defining equation from this). -/
def natDigitsRevGo (digit : Nat → Char) (base : Nat) : Nat → Nat → List Char
  | fuel + 1, n =>
    digit (n % base) ::
      (if n / base = 0 then [] else natDigitsRevGo digit base fuel (n / base))
  | 0, _ => []

/-- The digit-extraction loop shared by every variant:
`do { push digit(n % base); n /= base; } while (n);`, least significant
digit first. -/
def natDigitsRev (digit : Nat → Char) (base : Nat) (n : Nat) : List Char :=
  natDigitsRevGo digit base (n + 1) n

/-- The write trace `[(i, c0), (i+1, c1), ...]` of storing the characters
`cs` at consecutive buffer indices starting at `i`. -/
def writesFrom (i : Nat) : List Char → List (Nat × Char)
  | [] => []
  | c :: r => (i, c) :: writesFrom (i + 1) r

/-- The placeholder string `"(null)"` substituted for a NULL `%s`
argument by every variant. -/
def nullStr : List Char := ['(', 'n', 'u', 'l', 'l', ')']

namespace Qjs

/-! Embedding of `vsnprintf` from `src/userspace/quickjs/quickjs/stubs.c`
(lines 799-1019).  `out` is the offset `out - str`; `endCap` is the
offset of `end = str + size - 1`.  The remaining format string is a list;
the C pointer advance is `List.drop` of the number of consumed
characters. -/

/-- The five flag variables `left_align, zero_pad, plus_sign, space_sign,
hash` (lines 813-817). -/
structure Flags where
  leftAlign : Bool
  zeroPad : Bool
  plusSign : Bool
  spaceSign : Bool
  hash : Bool
deriving Repr, DecidableEq

def noFlags : Flags := ⟨false, false, false, false, false⟩

/-- The flag loop, lines 819-826. -/
def parseFlags (f : Flags) : List Char → Flags × List Char
  | c :: r =>
    if c = '-' then parseFlags ⟨true, f.zeroPad, f.plusSign, f.spaceSign, f.hash⟩ r
    else if c = '0' then parseFlags ⟨f.leftAlign, true, f.plusSign, f.spaceSign, f.hash⟩ r
    else if c = '+' then parseFlags ⟨f.leftAlign, f.zeroPad, true, f.spaceSign, f.hash⟩ r
    else if c = spc then parseFlags ⟨f.leftAlign, f.zeroPad, f.plusSign, true, f.hash⟩ r
    else if c = '#' then parseFlags ⟨f.leftAlign, f.zeroPad, f.plusSign, f.spaceSign, true⟩ r
    else (f, c :: r)
  | [] => (⟨f.leftAlign, f.zeroPad, f.plusSign, f.spaceSign, f.hash⟩, [])

/-- `while (isdigit(*format)) acc = acc * 10 + (*format - '0');` -/
def parseDigits (acc : Int) : List Char → Int × List Char
  | c :: r =>
    if '0' ≤ c ∧ c ≤ '9' then parseDigits (acc * 10 + ((c.toNat : Int) - 48)) r
    else (acc, c :: r)
  | [] => (acc, [])

/-- Width parsing, lines 829-839: `*` pulls an `int` argument, else a
decimal run. -/
def parseWidth (args : List Arg) (l : List Char) : Int × List Arg × List Char :=
  match l with
  | c :: r =>
    if c = '*' then
      let v := (takeIntArg args).1
      let args' := (takeIntArg args).2
      (v, args', r)
    else
      let w := (parseDigits 0 (c :: r)).1
      let r' := (parseDigits 0 (c :: r)).2
      (w, args, r')
  | [] => (0, args, [])

/-- Precision parsing, lines 841-855: absent is `-1`; after `.` either
`*` (argument-sourced) or a decimal run starting from 0. -/
def parsePrec (args : List Arg) (l : List Char) : Int × List Arg × List Char :=
  match l with
  | c :: r =>
    if c = '.' then
      match r with
      | c2 :: r2 =>
        if c2 = '*' then
          let v := (takeIntArg args).1
          let args' := (takeIntArg args).2
          (v, args', r2)
        else
          let p := (parseDigits 0 (c2 :: r2)).1
          let r' := (parseDigits 0 (c2 :: r2)).2
          (p, args, r')
      | [] => (0, args, [])
    else (-1, args, c :: r)
  | [] => (-1, args, [])

/-- The `is_long / is_longlong / is_size_t` variables, lines 857-874. -/
structure LenMod where
  isLong : Bool
  isLongLong : Bool
  isSize : Bool
deriving Repr, DecidableEq

/-- Length-modifier parsing, lines 861-874 (`h`/`hh` are consumed and
ignored). -/
def parseLen (l : List Char) : LenMod × List Char :=
  match l with
  | c :: r =>
    if c = 'l' then
      match r with
      | c2 :: r2 =>
        if c2 = 'l' then (⟨true, true, false⟩, r2) else (⟨true, false, false⟩, c2 :: r2)
      | [] => (⟨true, false, false⟩, [])
    else if c = 'z' then (⟨false, false, true⟩, r)
    else if c = 'h' then
      match r with
      | c2 :: r2 =>
        if c2 = 'h' then (⟨false, false, false⟩, r2) else (⟨false, false, false⟩, c2 :: r2)
      | [] => (⟨false, false, false⟩, [])
    else (⟨false, false, false⟩, c :: r)
  | [] => (⟨false, false, false⟩, [])

/-- The output pattern `while (<more chars> && out < end) *out++ = c;`
(also matching the chains of `if (out < end) *out++ = c;`, since `out`
never moves past `end`). -/
def emit (endCap : Nat) : List Char → Nat → List (Nat × Char) × Nat
  | [], out => ([], out)
  | c :: r, out =>
    if out < endCap then
      let t := (emit endCap r (out + 1)).1
      let o := (emit endCap r (out + 1)).2
      ((out, c) :: t, o)
    else ([], out)

/-- Result of one `%`-directive (the body from the flag loop through the
`switch`, lines 812-1014).  `consumed` counts format characters consumed
after the `%`; `stop` means the top-level loop does not continue (either
the trailing-`%` case, where the unconditional `format++` of line 1014
steps past the terminator — recorded as `oob` — or an unmodelled
floating-point conversion, recorded as `unmod`).  `effects` records
stores made through `int *` arguments by `%n`. -/
structure DirRes where
  tr : List (Nat × Char)
  out : Nat
  argsLeft : List Arg
  consumed : Nat
  stop : Bool
  effects : List (Nat × Nat)
  oob : Bool
  unmod : Bool
deriving Repr, DecidableEq

/-- One directive, lines 812-1014 of the quickjs `vsnprintf`. -/
def directive (endCap : Nat) (rest : List Char) (args : List Arg) (out : Nat) : DirRes :=
  let fl := (parseFlags noFlags rest).1
  let r1 := (parseFlags noFlags rest).2
  let width := (parseWidth args r1).1
  let args1 := (parseWidth args r1).2.1
  let r2 := (parseWidth args r1).2.2
  let prec := (parsePrec args1 r2).1
  let args2 := (parsePrec args1 r2).2.1
  let r3 := (parsePrec args1 r2).2.2
  let lm := (parseLen r3).1
  let r4 := (parseLen r3).2
  match r4 with
  | [] =>
    -- `*format` is the terminator: the `default` branch emits '%' and
    -- the NUL character, then `format++` (line 1014) moves past the
    -- terminator and the loop condition reads out of bounds.
    let t := (emit endCap ['%', nulc] out).1
    let o := (emit endCap ['%', nulc] out).2
    ⟨t, o, args2, 0, true, [], true, false⟩
  | cv :: r5 =>
    let consumed := rest.length - r5.length
    if cv = 's' then
      -- lines 877-883
      let so := (takeStrArg args2).1
      let args3 := (takeStrArg args2).2
      let s := so.getD nullStr
      let len : Int := if 0 ≤ prec ∧ prec < (s.length : Int) then prec else (s.length : Int)
      let t := (emit endCap (s.take len.toNat) out).1
      let o := (emit endCap (s.take len.toNat) out).2
      ⟨t, o, args3, consumed, false, [], false, false⟩
    else if cv = 'd' ∨ cv = 'i' then
      -- lines 885-903: digits (LSD first), then the sign, then fill up
      -- to the width, all reversed on output.
      let v := (takeIntArg args2).1
      let args3 := (takeIntArg args2).2
      let neg := v < 0
      let uv : Nat := if neg then (-v).toNat else v.toNat
      let buf := natDigitsRev decChar 10 uv ++ (if neg then ['-'] else [])
      let padN := (width - (buf.length : Int)).toNat
      let fill := if fl.zeroPad then '0' else spc
      let t := (emit endCap (buf ++ List.replicate padN fill).reverse out).1
      let o := (emit endCap (buf ++ List.replicate padN fill).reverse out).2
      ⟨t, o, args3, consumed, false, [], false, false⟩
    else if cv = 'u' then
      -- lines 905-919; the value is reinterpreted at the width selected
      -- by the length modifier (unsigned int vs unsigned long (long)).
      let v := (takeIntArg args2).1
      let args3 := (takeIntArg args2).2
      let w : Nat := if lm.isLongLong ∨ lm.isLong ∨ lm.isSize then 64 else 32
      let uv : Nat := (v % ((2 : Int) ^ w)).toNat
      let buf := natDigitsRev decChar 10 uv
      let padN := (width - (buf.length : Int)).toNat
      let fill := if fl.zeroPad then '0' else spc
      let t := (emit endCap (buf ++ List.replicate padN fill).reverse out).1
      let o := (emit endCap (buf ++ List.replicate padN fill).reverse out).2
      ⟨t, o, args3, consumed, false, [], false, false⟩
    else if cv = 'x' ∨ cv = 'X' then
      -- lines 921-937
      let v := (takeIntArg args2).1
      let args3 := (takeIntArg args2).2
      let w : Nat := if lm.isLongLong ∨ lm.isLong ∨ lm.isSize then 64 else 32
      let uv : Nat := (v % ((2 : Int) ^ w)).toNat
      let digit := if cv = 'X' then digitUpper else digitLower
      let buf := natDigitsRev digit 16 uv
      let padN := (width - (buf.length : Int)).toNat
      let fill := if fl.zeroPad then '0' else spc
      let t := (emit endCap (buf ++ List.replicate padN fill).reverse out).1
      let o := (emit endCap (buf ++ List.replicate padN fill).reverse out).2
      ⟨t, o, args3, consumed, false, [], false, false⟩
    else if cv = 'p' then
      -- lines 939-951: "0x" prefix, hex digits, no width handling
      let pv := (takePtrArg args2).1
      let args3 := (takePtrArg args2).2
      let t1 := (emit endCap ['0', 'x'] out).1
      let o1 := (emit endCap ['0', 'x'] out).2
      let t2 := (emit endCap (natDigitsRev digitLower 16 pv).reverse o1).1
      let o2 := (emit endCap (natDigitsRev digitLower 16 pv).reverse o1).2
      ⟨t1 ++ t2, o2, args3, consumed, false, [], false, false⟩
    else if cv = 'c' then
      -- lines 953-956: `char c = (char)va_arg(ap, int);`
      let v := (takeIntArg args2).1
      let args3 := (takeIntArg args2).2
      let t := (emit endCap [Char.ofNat (v % 256).toNat] out).1
      let o := (emit endCap [Char.ofNat (v % 256).toNat] out).2
      ⟨t, o, args3, consumed, false, [], false, false⟩
    else if cv = 'f' ∨ cv = 'F' ∨ cv = 'e' ∨ cv = 'E' ∨ cv = 'g' ∨ cv = 'G' then
      -- lines 958-999: floating point, not modelled; consumes one
      -- (double) argument and stops the modelled run.
      ⟨[], out, args2.tail, 0, true, [], false, true⟩
    else if cv = '%' then
      -- lines 1001-1003
      let t := (emit endCap ['%'] out).1
      let o := (emit endCap ['%'] out).2
      ⟨t, o, args2, consumed, false, [], false, false⟩
    else if cv = 'n' then
      -- lines 1004-1008: `int *ptr = va_arg(ap, int *); *ptr = out - str;`
      let id := (takeIntPtrArg args2).1
      let args3 := (takeIntPtrArg args2).2
      ⟨[], out, args3, consumed, false, [(id, out)], false, false⟩
    else
      -- lines 1009-1012: unrecognized conversion
      let t := (emit endCap ['%', cv] out).1
      let o := (emit endCap ['%', cv] out).2
      ⟨t, o, args2, consumed, false, [], false, false⟩

/-- Result of a whole run. -/
structure Res where
  tr : List (Nat × Char)
  out : Nat
  argsLeft : List Arg
  effects : List (Nat × Nat)
  oob : Bool
  unmod : Bool
deriving Repr, DecidableEq

/-- The main loop `while (*format && out < end)`, lines 805-1015. -/
def loop (endCap : Nat) (fmt : List Char) (args : List Arg) (out : Nat) : Res :=
  match fmt with
  | [] => ⟨[], out, args, [], false, false⟩
  | c :: rest =>
    if out < endCap then
      if c = '%' then
        let d := directive endCap rest args out
        if d.stop then ⟨d.tr, d.out, d.argsLeft, d.effects, d.oob, d.unmod⟩
        else
          let r := loop endCap (rest.drop d.consumed) d.argsLeft d.out
          ⟨d.tr ++ r.tr, r.out, r.argsLeft, d.effects ++ r.effects,
            d.oob || r.oob, d.unmod || r.unmod⟩
      else
        let r := loop endCap rest args (out + 1)
        ⟨(out, c) :: r.tr, r.out, r.argsLeft, r.effects, r.oob, r.unmod⟩
    else ⟨[], out, args, [], false, false⟩
termination_by fmt.length
decreasing_by
  · simp [List.length_drop]; omega
  · simp

/-- `vsnprintf(str, size, format, ap)`, lines 799-1019: guard for
`size == 0` (returns 0 with no write), run the loop with
`end = str + size - 1`, then write the terminator `*out = '\0'` and
return `out - str`. -/
def vsnprintf (size : Nat) (fmt : List Char) (args : List Arg) : Res :=
  if size = 0 then ⟨[], 0, args, [], false, false⟩
  else
    let r := loop (size - 1) fmt args 0
    ⟨r.tr ++ [(r.out, nulc)], r.out, r.argsLeft, r.effects, r.oob, r.unmod⟩

end Qjs

namespace Doom

/-! Embedding of `format_int` (lines 324-367) and `vsnprintf`
(lines 369-469) from `src/userspace/doom/stubs/stubs.c`.  Writes use the
skip pattern `if (pos < size - 1) str[pos] = c; pos++;`: the position
always advances, the store is guarded.  All `int` comparisons with
`(int)size - 1` are rendered as `pos + 1 < size`, which agrees with the
C comparison for every `size_t` value including 0. -/

/-- The guarded-store pattern of `format_int`:
`if (written < (int)size - 1) buf[written] = c; written++;`, with `buf`
at absolute offset `base` and `size` the clamped remaining capacity. -/
def emitChars (size base : Nat) : List Char → Nat → List (Nat × Char) × Nat
  | [], w => ([], w)
  | c :: r, w =>
    let t := (emitChars size base r (w + 1)).1
    let w' := (emitChars size base r (w + 1)).2
    ((if w + 1 < size then [(base + w, c)] else []) ++ t, w')

/-- The guarded-store pattern of the main loop:
`if (pos < size - 1) str[pos] = c; pos++;` at absolute positions. -/
def emitAt (size : Nat) : List Char → Nat → List (Nat × Char) × Nat
  | [], pos => ([], pos)
  | c :: r, pos =>
    let t := (emitAt size r (pos + 1)).1
    let p' := (emitAt size r (pos + 1)).2
    ((if pos + 1 < size then [(pos, c)] else []) ++ t, p')

/-- `format_int(buf, size, val, base, is_unsigned, width, zero_pad,
precision)`, lines 324-367, with `buf = str + base`.  The body after the
digit loop is the straight-line sequence of guarded stores: optional
sign when zero-filling, the width fill, optional sign otherwise, the
precision zero fill, then the digits most-significant first; `written`
(the returned count) advances by one per character regardless of
truncation. -/
def format_int (size base : Nat) (val : Int) (nbase : Nat) (isUnsigned : Bool)
    (width : Int) (zeroPad : Bool) (precision : Int) : List (Nat × Char) × Nat :=
  let neg := ¬isUnsigned ∧ val < 0
  let uval : Nat := if neg then (-val).toNat else (val % ((2 : Int) ^ 64)).toNat
  let ds := natDigitsRev digitLower nbase uval
  let i := ds.length
  let digitPad : Nat := if (i : Int) < precision then (precision - i).toNat else 0
  let total : Nat := i + digitPad + (if neg then 1 else 0)
  let pad : Nat := if (total : Int) < width then (width - total).toNat else 0
  let useZero := if 0 ≤ precision then false else zeroPad
  let content :=
    (if neg ∧ useZero then ['-'] else []) ++
    List.replicate pad (if useZero then '0' else spc) ++
    (if neg ∧ ¬useZero then ['-'] else []) ++
    List.replicate digitPad '0' ++
    ds.reverse
  emitChars size base content 0

/-- The flag loop, lines 382-388: consumes `0 - + space`, recording
`zero_pad` and `left_align`. -/
def parseFlags (zeroPad leftAlign : Bool) : List Char → (Bool × Bool) × List Char
  | c :: r =>
    if c = '0' ∨ c = '-' ∨ c = '+' ∨ c = spc then
      parseFlags (if c = '0' then true else zeroPad) (if c = '-' then true else leftAlign) r
    else ((zeroPad, leftAlign), c :: r)
  | [] => ((zeroPad, leftAlign), [])

/-- `while (*format >= '0' && *format <= '9') acc = acc * 10 + ...` -/
def parseDigits (acc : Int) : List Char → Int × List Char
  | c :: r =>
    if '0' ≤ c ∧ c ≤ '9' then parseDigits (acc * 10 + ((c.toNat : Int) - 48)) r
    else (acc, c :: r)
  | [] => (acc, [])

/-- Width parsing, lines 391-393. -/
def parseWidth (args : List Arg) (l : List Char) : Int × List Arg × List Char :=
  match l with
  | c :: r =>
    if c = '*' then
      let v := (takeIntArg args).1
      let args' := (takeIntArg args).2
      (v, args', r)
    else
      let w := (parseDigits 0 (c :: r)).1
      let r' := (parseDigits 0 (c :: r)).2
      (w, args, r')
  | [] => (0, args, [])

/-- Precision parsing, lines 396-402. -/
def parsePrec (args : List Arg) (l : List Char) : Int × List Arg × List Char :=
  match l with
  | c :: r =>
    if c = '.' then
      match r with
      | c2 :: r2 =>
        if c2 = '*' then
          let v := (takeIntArg args).1
          let args' := (takeIntArg args).2
          (v, args', r2)
        else
          let p := (parseDigits 0 (c2 :: r2)).1
          let r' := (parseDigits 0 (c2 :: r2)).2
          (p, args, r')
      | [] => (0, args, [])
    else (-1, args, c :: r)
  | [] => (-1, args, [])

/-- Length modifier, lines 405-408: the `is_long` level (0, 1 or 2);
`h`/`hh` consumed and ignored, `z` counts as long. -/
def parseLen (l : List Char) : Nat × List Char :=
  match l with
  | c :: r =>
    if c = 'l' then
      match r with
      | c2 :: r2 => if c2 = 'l' then (2, r2) else (1, c2 :: r2)
      | [] => (1, [])
    else if c = 'h' then
      match r with
      | c2 :: r2 => if c2 = 'h' then (0, r2) else (0, c2 :: r2)
      | [] => (0, [])
    else if c = 'z' then (1, r)
    else (0, c :: r)
  | [] => (0, [])

/-- Result of one `%`-directive (lines 379-464).  `stop` marks the
trailing-`%` case: the `default` branch stores the NUL character,
`if (*format) format++` does not advance, and the loop exits on its next
condition check (no out-of-bounds read in this variant). -/
structure DirRes where
  tr : List (Nat × Char)
  out : Nat
  argsLeft : List Arg
  consumed : Nat
  stop : Bool
deriving Repr, DecidableEq

/-- The clamped capacity handed to `format_int`:
`size > pos ? size - pos : 0`. -/
def subCap (size pos : Nat) : Nat := if pos < size then size - pos else 0

/-- One directive, lines 379-464 of the doom `vsnprintf`. -/
def directive (size : Nat) (rest : List Char) (args : List Arg) (pos : Nat) : DirRes :=
  let zeroPad := (parseFlags false false rest).1.1
  let leftAlign := (parseFlags false false rest).1.2
  let r1 := (parseFlags false false rest).2
  let width := (parseWidth args r1).1
  let args1 := (parseWidth args r1).2.1
  let r2 := (parseWidth args r1).2.2
  let prec := (parsePrec args1 r2).1
  let args2 := (parsePrec args1 r2).2.1
  let r3 := (parsePrec args1 r2).2.2
  let lng := (parseLen r3).1
  let r4 := (parseLen r3).2
  let _ := leftAlign  -- `(void)left_align;` (line 388): parsed, unused
  match r4 with
  | [] =>
    let t := (emitAt size [nulc] pos).1
    let p' := (emitAt size [nulc] pos).2
    ⟨t, p', args2, 0, true⟩
  | cv :: r5 =>
    let consumed := rest.length - r5.length
    if cv = 'd' ∨ cv = 'i' then
      -- lines 412-417
      let v := (takeIntArg args2).1
      let args3 := (takeIntArg args2).2
      let t := (format_int (subCap size pos) pos v 10 false width zeroPad prec).1
      let w := (format_int (subCap size pos) pos v 10 false width zeroPad prec).2
      ⟨t, pos + w, args3, consumed, false⟩
    else if cv = 'u' then
      -- lines 418-423: the value is an unsigned of the selected width
      let v := (takeIntArg args2).1
      let args3 := (takeIntArg args2).2
      let wsel : Nat := if 1 ≤ lng then 64 else 32
      let t := (format_int (subCap size pos) pos (v % ((2 : Int) ^ wsel)) 10 true width zeroPad prec).1
      let w := (format_int (subCap size pos) pos (v % ((2 : Int) ^ wsel)) 10 true width zeroPad prec).2
      ⟨t, pos + w, args3, consumed, false⟩
    else if cv = 'x' ∨ cv = 'X' then
      -- lines 424-429 (note: base-16 digits are produced by the shared
      -- lowercase digit expression even for %X)
      let v := (takeIntArg args2).1
      let args3 := (takeIntArg args2).2
      let wsel : Nat := if 1 ≤ lng then 64 else 32
      let t := (format_int (subCap size pos) pos (v % ((2 : Int) ^ wsel)) 16 true width zeroPad prec).1
      let w := (format_int (subCap size pos) pos (v % ((2 : Int) ^ wsel)) 16 true width zeroPad prec).2
      ⟨t, pos + w, args3, consumed, false⟩
    else if cv = 'p' then
      -- lines 430-436: `if (pos < size - 1) str[pos++] = '0';` — the
      -- position advances only when the store happens
      let pv := (takePtrArg args2).1
      let args3 := (takePtrArg args2).2
      let t1 := (if pos + 1 < size then ([(pos, '0')], pos + 1) else ([], pos)).1
      let p1 := (if pos + 1 < size then ([(pos, '0')], pos + 1) else ([], pos)).2
      let t2 := (if p1 + 1 < size then ([(p1, 'x')], p1 + 1) else ([], p1)).1
      let p2 := (if p1 + 1 < size then ([(p1, 'x')], p1 + 1) else ([], p1)).2
      let t3 := (format_int (subCap size p2) p2 (pv : Int) 16 true 0 false (-1)).1
      let w := (format_int (subCap size p2) p2 (pv : Int) 16 true 0 false (-1)).2
      ⟨t1 ++ t2 ++ t3, p2 + w, args3, consumed, false⟩
    else if cv = 's' then
      -- lines 437-447
      let so := (takeStrArg args2).1
      let args3 := (takeStrArg args2).2
      let s := so.getD nullStr
      let slen : Int := if 0 ≤ prec ∧ prec < (s.length : Int) then prec else (s.length : Int)
      let t := (emitAt size (s.take slen.toNat) pos).1
      let p' := (emitAt size (s.take slen.toNat) pos).2
      ⟨t, p', args3, consumed, false⟩
    else if cv = 'c' then
      -- lines 448-453
      let v := (takeIntArg args2).1
      let args3 := (takeIntArg args2).2
      let t := (emitAt size [Char.ofNat (v % 256).toNat] pos).1
      let p' := (emitAt size [Char.ofNat (v % 256).toNat] pos).2
      ⟨t, p', args3, consumed, false⟩
    else if cv = '%' then
      -- lines 454-456
      let t := (emitAt size ['%'] pos).1
      let p' := (emitAt size ['%'] pos).2
      ⟨t, p', args2, consumed, false⟩
    else
      -- lines 458-462: unknown conversion — outputs only the character
      let t := (emitAt size [cv] pos).1
      let p' := (emitAt size [cv] pos).2
      ⟨t, p', args2, consumed, false⟩

/-- Result of a whole run. -/
structure Res where
  tr : List (Nat × Char)
  out : Nat
  argsLeft : List Arg
deriving Repr, DecidableEq

/-- The main loop `while (*format)`, lines 373-465 (the capacity bounds
stores, never the loop itself). -/
def loop (size : Nat) (fmt : List Char) (args : List Arg) (pos : Nat) : Res :=
  match fmt with
  | [] => ⟨[], pos, args⟩
  | c :: rest =>
    if c = '%' then
      let d := directive size rest args pos
      if d.stop then ⟨d.tr, d.out, d.argsLeft⟩
      else
        let r := loop size (rest.drop d.consumed) d.argsLeft d.out
        ⟨d.tr ++ r.tr, r.out, r.argsLeft⟩
    else
      let r := loop size rest args (pos + 1)
      ⟨(if pos + 1 < size then [(pos, c)] else []) ++ r.tr, r.out, r.argsLeft⟩
termination_by fmt.length
decreasing_by
  · simp [List.length_drop]; omega
  · simp

/-- `vsnprintf(str, size, format, ap)`, lines 369-469: `size == 0`
returns 0 with no write; otherwise the loop runs and the terminator is
stored at `pos < size ? pos : size - 1`; the return value is the full
(logical) position `pos`. -/
def vsnprintf (size : Nat) (fmt : List Char) (args : List Arg) : Res :=
  if size = 0 then ⟨[], 0, args⟩
  else
    let r := loop size fmt args 0
    ⟨r.tr ++ [((if r.out < size then r.out else size - 1), nulc)], r.out, r.argsLeft⟩

end Doom

namespace Sqlite

/-! Embedding of `vsnprintf` from
`src/userspace/sqld/sqlite3/sqlite_stubs.c` (lines 418-546).  There is
no `size == 0` guard: `end = str + size - 1` is modelled as the integer
offset `size - 1` (which is `-1` when `size = 0`), every content store
is guarded by `out < end`, and the final `*out = '\0'` is unconditional.
A trailing `%` reaches the `default` branch with the terminator and the
unconditional `format++` of line 541 then steps past it (`oob`). -/

/-- `while (<more> && out < end) *out++ = c;` with `end` as an integer
offset (possibly `-1`). -/
def emit (endI : Int) : List Char → Nat → List (Nat × Char) × Nat
  | [], out => ([], out)
  | c :: r, out =>
    if (out : Int) < endI then
      let t := (emit endI r (out + 1)).1
      let o := (emit endI r (out + 1)).2
      ((out, c) :: t, o)
    else ([], out)

/-- Lines 432-435: a single optional `0` flag (no loop, no other
flags). -/
def parseFlag : List Char → Bool × List Char
  | '0' :: r => (true, r)
  | l => (false, l)

/-- `while (isdigit(*format)) width = width * 10 + ...`, lines 436-439. -/
def parseDigits (acc : Int) : List Char → Int × List Char
  | c :: r =>
    if '0' ≤ c ∧ c ≤ '9' then parseDigits (acc * 10 + ((c.toNat : Int) - 48)) r
    else (acc, c :: r)
  | [] => (acc, [])

/-- Length modifiers, lines 442-451. -/
def parseLen : List Char → (Bool × Bool) × List Char
  | 'l' :: 'l' :: r => ((true, true), r)
  | 'l' :: r => ((true, false), r)
  | l => ((false, false), l)

/-- Result of one `%`-directive (lines 427-541). -/
structure DirRes where
  tr : List (Nat × Char)
  out : Nat
  argsLeft : List Arg
  consumed : Nat
  stop : Bool
  oob : Bool
deriving Repr, DecidableEq

/-- One directive, lines 427-541 of the sqlite-stub `vsnprintf`. -/
def directive (endI : Int) (rest : List Char) (args : List Arg) (out : Nat) : DirRes :=
  let zeroPad := (parseFlag rest).1
  let r1 := (parseFlag rest).2
  let width := (parseDigits 0 r1).1
  let r2 := (parseDigits 0 r1).2
  let isLong := (parseLen r2).1.1
  let isLongLong := (parseLen r2).1.2
  let r3 := (parseLen r2).2
  match r3 with
  | [] =>
    -- `*format` is the terminator: `default` emits '%' and the NUL
    -- character, then `format++` (line 541) reads out of bounds.
    let t := (emit endI ['%', nulc] out).1
    let o := (emit endI ['%', nulc] out).2
    ⟨t, o, args, 0, true, true⟩
  | cv :: r5 =>
    let consumed := rest.length - r5.length
    if cv = 's' then
      -- lines 454-458: the whole string, no precision support
      let so := (takeStrArg args).1
      let args3 := (takeStrArg args).2
      let s := so.getD nullStr
      let t := (emit endI s out).1
      let o := (emit endI s out).2
      ⟨t, o, args3, consumed, false, false⟩
    else if cv = 'd' ∨ cv = 'i' then
      -- lines 460-478
      let v := (takeIntArg args).1
      let args3 := (takeIntArg args).2
      let neg := v < 0
      let uv : Nat := if neg then (-v).toNat else v.toNat
      let buf := natDigitsRev decChar 10 uv ++ (if neg then ['-'] else [])
      let padN := (width - (buf.length : Int)).toNat
      let fill := if zeroPad then '0' else spc
      let t := (emit endI (buf ++ List.replicate padN fill).reverse out).1
      let o := (emit endI (buf ++ List.replicate padN fill).reverse out).2
      ⟨t, o, args3, consumed, false, false⟩
    else if cv = 'u' then
      -- lines 480-494
      let v := (takeIntArg args).1
      let args3 := (takeIntArg args).2
      let w : Nat := if isLongLong ∨ isLong then 64 else 32
      let uv : Nat := (v % ((2 : Int) ^ w)).toNat
      let buf := natDigitsRev decChar 10 uv
      let padN := (width - (buf.length : Int)).toNat
      let fill := if zeroPad then '0' else spc
      let t := (emit endI (buf ++ List.replicate padN fill).reverse out).1
      let o := (emit endI (buf ++ List.replicate padN fill).reverse out).2
      ⟨t, o, args3, consumed, false, false⟩
    else if cv = 'x' ∨ cv = 'X' then
      -- lines 496-512
      let v := (takeIntArg args).1
      let args3 := (takeIntArg args).2
      let w : Nat := if isLongLong ∨ isLong then 64 else 32
      let uv : Nat := (v % ((2 : Int) ^ w)).toNat
      let digit := if cv = 'X' then digitUpper else digitLower
      let buf := natDigitsRev digit 16 uv
      let padN := (width - (buf.length : Int)).toNat
      let fill := if zeroPad then '0' else spc
      let t := (emit endI (buf ++ List.replicate padN fill).reverse out).1
      let o := (emit endI (buf ++ List.replicate padN fill).reverse out).2
      ⟨t, o, args3, consumed, false, false⟩
    else if cv = 'p' then
      -- lines 514-527
      let pv := (takePtrArg args).1
      let args3 := (takePtrArg args).2
      let t1 := (emit endI ['0', 'x'] out).1
      let o1 := (emit endI ['0', 'x'] out).2
      let t2 := (emit endI (natDigitsRev digitLower 16 pv).reverse o1).1
      let o2 := (emit endI (natDigitsRev digitLower 16 pv).reverse o1).2
      ⟨t1 ++ t2, o2, args3, consumed, false, false⟩
    else if cv = 'c' then
      -- lines 528-532
      let v := (takeIntArg args).1
      let args3 := (takeIntArg args).2
      let t := (emit endI [Char.ofNat (v % 256).toNat] out).1
      let o := (emit endI [Char.ofNat (v % 256).toNat] out).2
      ⟨t, o, args3, consumed, false, false⟩
    else if cv = '%' then
      -- lines 533-535
      let t := (emit endI ['%'] out).1
      let o := (emit endI ['%'] out).2
      ⟨t, o, args, consumed, false, false⟩
    else
      -- lines 536-539
      let t := (emit endI ['%', cv] out).1
      let o := (emit endI ['%', cv] out).2
      ⟨t, o, args, consumed, false, false⟩

/-- Result of a whole run. -/
structure Res where
  tr : List (Nat × Char)
  out : Nat
  argsLeft : List Arg
  oob : Bool
deriving Repr, DecidableEq

/-- The main loop `while (*format && out < end)`, lines 422-542. -/
def loop (endI : Int) (fmt : List Char) (args : List Arg) (out : Nat) : Res :=
  match fmt with
  | [] => ⟨[], out, args, false⟩
  | c :: rest =>
    if (out : Int) < endI then
      if c = '%' then
        let d := directive endI rest args out
        if d.stop then ⟨d.tr, d.out, d.argsLeft, d.oob⟩
        else
          let r := loop endI (rest.drop d.consumed) d.argsLeft d.out
          ⟨d.tr ++ r.tr, r.out, r.argsLeft, d.oob || r.oob⟩
      else
        let r := loop endI rest args (out + 1)
        ⟨(out, c) :: r.tr, r.out, r.argsLeft, r.oob⟩
    else ⟨[], out, args, false⟩
termination_by fmt.length
decreasing_by
  · simp [List.length_drop]; omega
  · simp

/-- `vsnprintf(str, size, format, ap)`, lines 418-546: no zero-capacity
guard; the terminator store `*out = '\0'` (line 544) is unconditional —
with `size = 0` it lands at index 0, outside the given capacity. -/
def vsnprintf (size : Nat) (fmt : List Char) (args : List Arg) : Res :=
  let r := loop ((size : Int) - 1) fmt args 0
  ⟨r.tr ++ [(r.out, nulc)], r.out, r.argsLeft, r.oob⟩

end Sqlite

namespace Tcc

/-! Embedding of `vsnprintf` from `src/userspace/tcc/src/libc_stubs.c`
(lines 224-371).  Stores are guarded by `out < end` and `out` never
moves past `end`, so consecutive guarded loops compose into one `emit`
over the concatenated content. -/

/-- `while (<more> && out < end) *out++ = c;` (and the equivalent
`if (out < end) *out++ = c;` chains). -/
def emit (endCap : Nat) : List Char → Nat → List (Nat × Char) × Nat
  | [], out => ([], out)
  | c :: r, out =>
    if out < endCap then
      let t := (emit endCap r (out + 1)).1
      let o := (emit endCap r (out + 1)).2
      ((out, c) :: t, o)
    else ([], out)

/-- Lines 242-243: one optional `-`, then one optional `0` (in that
order only). -/
def parseFlags : List Char → (Bool × Bool) × List Char
  | '-' :: '0' :: r => ((true, true), r)
  | '-' :: r => ((true, false), r)
  | '0' :: r => ((false, true), r)
  | l => ((false, false), l)

/-- `while (isdigit(*format)) acc = acc * 10 + ...` -/
def parseDigits (acc : Int) : List Char → Int × List Char
  | c :: r =>
    if '0' ≤ c ∧ c ≤ '9' then parseDigits (acc * 10 + ((c.toNat : Int) - 48)) r
    else (acc, c :: r)
  | [] => (acc, [])

/-- Width parsing, lines 246-251. -/
def parseWidth (args : List Arg) (l : List Char) : Int × List Arg × List Char :=
  match l with
  | '*' :: r =>
    let v := (takeIntArg args).1
    let args' := (takeIntArg args).2
    (v, args', r)
  | _ =>
    let w := (parseDigits 0 l).1
    let r := (parseDigits 0 l).2
    (w, args, r)

/-- Precision parsing, lines 253-263. -/
def parsePrec (args : List Arg) (l : List Char) : Int × List Arg × List Char :=
  match l with
  | '.' :: '*' :: r =>
    let v := (takeIntArg args).1
    let args' := (takeIntArg args).2
    (v, args', r)
  | '.' :: r =>
    let p := (parseDigits 0 r).1
    let r' := (parseDigits 0 r).2
    (p, args, r')
  | _ => (-1, args, l)

/-- Length modifiers, lines 265-274; on this 64-bit target `z` sets both
`is_long` and `is_longlong` (`sizeof(size_t) == sizeof(long) ==
sizeof(long long) == 8`). -/
def parseLen : List Char → (Bool × Bool) × List Char
  | 'l' :: 'l' :: r => ((true, true), r)
  | 'l' :: r => ((true, false), r)
  | 'z' :: r => ((true, true), r)
  | l => ((false, false), l)

/-- Result of one `%`-directive (lines 236-367). -/
structure DirRes where
  tr : List (Nat × Char)
  out : Nat
  argsLeft : List Arg
  consumed : Nat
  stop : Bool
deriving Repr, DecidableEq

/-- One directive, lines 236-367 of the tcc-stub `vsnprintf`. -/
def directive (endCap : Nat) (rest : List Char) (args : List Arg) (out : Nat) : DirRes :=
  let leftJustify := (parseFlags rest).1.1
  let zeroPad := (parseFlags rest).1.2
  let r1 := (parseFlags rest).2
  let width := (parseWidth args r1).1
  let args1 := (parseWidth args r1).2.1
  let r2 := (parseWidth args r1).2.2
  let prec := (parsePrec args1 r2).1
  let args2 := (parsePrec args1 r2).2.1
  let r3 := (parsePrec args1 r2).2.2
  let isLong := (parseLen r3).1.1
  let isLongLong := (parseLen r3).1.2
  let r4 := (parseLen r3).2
  match r4 with
  | [] =>
    -- `*format` is the terminator: `default` emits '%', skips the
    -- second store (`*format` is NUL), and `if (*format) format++`
    -- stays put, so the loop exits normally.
    let t := (emit endCap ['%'] out).1
    let o := (emit endCap ['%'] out).2
    ⟨t, o, args2, 0, true⟩
  | cv :: r5 =>
    let consumed := rest.length - r5.length
    if cv = 's' then
      -- lines 277-292
      let so := (takeStrArg args2).1
      let args3 := (takeStrArg args2).2
      let s := so.getD nullStr
      let len : Nat := if 0 ≤ prec then min s.length prec.toNat else s.length
      let padN : Nat := (width - (len : Int)).toNat
      let content :=
        if leftJustify then s.take len ++ List.replicate padN spc
        else List.replicate padN spc ++ s.take len
      let t := (emit endCap content out).1
      let o := (emit endCap content out).2
      ⟨t, o, args3, consumed, false⟩
    else if cv = 'd' ∨ cv = 'i' then
      -- lines 293-316
      let v := (takeIntArg args2).1
      let args3 := (takeIntArg args2).2
      let neg := v < 0
      let uv : Nat := if neg then (-v).toNat else v.toNat
      let buf := natDigitsRev decChar 10 uv ++ (if neg then ['-'] else [])
      let padN : Nat := (width - (buf.length : Int)).toNat
      let fill := if zeroPad then '0' else spc
      let content :=
        if leftJustify then buf.reverse ++ List.replicate padN spc
        else List.replicate padN fill ++ buf.reverse
      let t := (emit endCap content out).1
      let o := (emit endCap content out).2
      ⟨t, o, args3, consumed, false⟩
    else if cv = 'u' ∨ cv = 'x' ∨ cv = 'X' ∨ cv = 'p' then
      -- lines 317-352
      let digit := if cv = 'X' then digitUpper else digitLower
      let base : Nat := if cv = 'u' then 10 else 16
      let pwua :=
        if cv = 'p' then
          (['0', 'x'], width - 2, (takePtrArg args2).1, (takePtrArg args2).2)
        else
          let wsel : Nat := if isLongLong then 64 else if isLong then 64 else 32
          ([], width, (((takeIntArg args2).1 % ((2 : Int) ^ wsel)).toNat), (takeIntArg args2).2)
      let pre := pwua.1
      let width' := pwua.2.1
      let uv := pwua.2.2.1
      let args3 := pwua.2.2.2
      let buf := natDigitsRev digit base uv
      let padN : Nat := (width' - (buf.length : Int)).toNat
      let fill := if zeroPad then '0' else spc
      let content :=
        pre ++ (if leftJustify then buf.reverse ++ List.replicate padN spc
                else List.replicate padN fill ++ buf.reverse)
      let t := (emit endCap content out).1
      let o := (emit endCap content out).2
      ⟨t, o, args3, consumed, false⟩
    else if cv = 'c' then
      -- lines 353-357
      let v := (takeIntArg args2).1
      let args3 := (takeIntArg args2).2
      let t := (emit endCap [Char.ofNat (v % 256).toNat] out).1
      let o := (emit endCap [Char.ofNat (v % 256).toNat] out).2
      ⟨t, o, args3, consumed, false⟩
    else if cv = '%' then
      -- lines 358-361
      let t := (emit endCap ['%'] out).1
      let o := (emit endCap ['%'] out).2
      ⟨t, o, args2, consumed, false⟩
    else
      -- lines 362-365: `%` then the character (already non-NUL here)
      let t := (emit endCap ['%', cv] out).1
      let o := (emit endCap ['%', cv] out).2
      ⟨t, o, args2, consumed, false⟩

/-- Result of a whole run. -/
structure Res where
  tr : List (Nat × Char)
  out : Nat
  argsLeft : List Arg
deriving Repr, DecidableEq

/-- The main loop `while (*format && out < end)`, lines 229-368. -/
def loop (endCap : Nat) (fmt : List Char) (args : List Arg) (out : Nat) : Res :=
  match fmt with
  | [] => ⟨[], out, args⟩
  | c :: rest =>
    if out < endCap then
      if c = '%' then
        let d := directive endCap rest args out
        if d.stop then ⟨d.tr, d.out, d.argsLeft⟩
        else
          let r := loop endCap (rest.drop d.consumed) d.argsLeft d.out
          ⟨d.tr ++ r.tr, r.out, r.argsLeft⟩
      else
        let r := loop endCap rest args (out + 1)
        ⟨(out, c) :: r.tr, r.out, r.argsLeft⟩
    else ⟨[], out, args⟩
termination_by fmt.length
decreasing_by
  · simp [List.length_drop]; omega
  · simp

/-- `vsnprintf(str, size, format, ap)`, lines 224-371: guard for
`size == 0`, loop with `end = str + size - 1`, terminator `*out = '\0'`,
return `out - str`. -/
def vsnprintf (size : Nat) (fmt : List Char) (args : List Arg) : Res :=
  if size = 0 then ⟨[], 0, args⟩
  else
    let r := loop (size - 1) fmt args 0
    ⟨r.tr ++ [(r.out, nulc)], r.out, r.argsLeft⟩

end Tcc

/-! ### General lemmas -/

theorem writesFrom_append (i : Nat) (a b : List Char) :
    writesFrom i (a ++ b) = writesFrom i a ++ writesFrom (i + a.length) b := by
  induction a generalizing i with
  | nil => simp [writesFrom]
  | cons c r ih =>
      simp [writesFrom, ih, Nat.add_comm, Nat.add_assoc, Nat.add_left_comm]

theorem natDigitsRevGo_fuel (digit : Nat → Char) (base : Nat) (hb : 2 ≤ base) :
    ∀ n f₁ f₂, n < f₁ → n < f₂ →
      natDigitsRevGo digit base f₁ n = natDigitsRevGo digit base f₂ n := by
  intro n
  induction n using Nat.strong_induction_on with
  | _ n ih =>
    intro f₁ f₂ h₁ h₂
    match f₁, f₂ with
    | a + 1, b + 1 =>
      simp only [natDigitsRevGo]
      by_cases h0 : n / base = 0
      · simp [h0]
      · have hn : n ≠ 0 := fun h => h0 (by simp [h])
        have hdiv : n / base < n := Nat.div_lt_self (by omega) (by omega)
        simp only [h0, if_false]
        rw [ih (n / base) hdiv a b (by omega) (by omega)]

/-- The fuel supplied by `natDigitsRev` never runs out: the function
satisfies the do-while loop's defining equation. -/
theorem natDigitsRev_unfold (digit : Nat → Char) (base n : Nat) (hb : 2 ≤ base) :
    natDigitsRev digit base n =
      digit (n % base) ::
        (if n / base = 0 then [] else natDigitsRev digit base (n / base)) := by
  by_cases h0 : n / base = 0
  · simp [natDigitsRev, natDigitsRevGo, h0]
  · have hn : n ≠ 0 := fun h => h0 (by simp [h])
    have hdiv : n / base < n := Nat.div_lt_self (by omega) (by omega)
    have hL : natDigitsRevGo digit base (n + 1) n =
        digit (n % base) :: natDigitsRevGo digit base n (n / base) := by
      simp only [natDigitsRevGo, h0, if_false]
    unfold natDigitsRev
    rw [hL, natDigitsRevGo_fuel digit base hb (n / base) n (n / base + 1) (by omega) (by omega),
      if_neg h0]

/-! ### Lemmas about the output primitives -/

theorem Qjs.qjs_emit_full (endCap : Nat) (cs : List Char) (out : Nat)
    (h : out + cs.length ≤ endCap) :
    Qjs.emit endCap cs out = (writesFrom out cs, out + cs.length) := by
  induction cs generalizing out with
  | nil => simp [Qjs.emit, writesFrom]
  | cons c r ih =>
    simp only [List.length_cons] at h
    have h1 : out < endCap := by omega
    simp [Qjs.emit, h1, ih (out + 1) (by omega), writesFrom]
    omega

theorem Tcc.tcc_emit_full (endCap : Nat) (cs : List Char) (out : Nat)
    (h : out + cs.length ≤ endCap) :
    Tcc.emit endCap cs out = (writesFrom out cs, out + cs.length) := by
  induction cs generalizing out with
  | nil => simp [Tcc.emit, writesFrom]
  | cons c r ih =>
    simp only [List.length_cons] at h
    have h1 : out < endCap := by omega
    simp [Tcc.emit, h1, ih (out + 1) (by omega), writesFrom]
    omega

theorem Doom.emitAt_out (size : Nat) (cs : List Char) (pos : Nat) :
    (Doom.emitAt size cs pos).2 = pos + cs.length := by
  induction cs generalizing pos with
  | nil => simp [Doom.emitAt]
  | cons c r ih => simp [Doom.emitAt, ih]; omega

theorem Doom.emitAt_full (size : Nat) (cs : List Char) (pos : Nat)
    (h : pos + cs.length < size) :
    (Doom.emitAt size cs pos).1 = writesFrom pos cs := by
  induction cs generalizing pos with
  | nil => simp [Doom.emitAt, writesFrom]
  | cons c r ih =>
    simp only [List.length_cons] at h
    have h2 : pos + 1 < size := by omega
    simp [Doom.emitAt, ih (pos + 1) (by omega), writesFrom, h2]

theorem Doom.emitChars_out (size base : Nat) (cs : List Char) (w : Nat) :
    (Doom.emitChars size base cs w).2 = w + cs.length := by
  induction cs generalizing w with
  | nil => simp [Doom.emitChars]
  | cons c r ih => simp [Doom.emitChars, ih]; omega

theorem Doom.emitChars_full (size base : Nat) (cs : List Char) (w : Nat)
    (h : w + cs.length < size) :
    (Doom.emitChars size base cs w).1 = writesFrom (base + w) cs := by
  induction cs generalizing w with
  | nil => simp [Doom.emitChars, writesFrom]
  | cons c r ih =>
    simp only [List.length_cons] at h
    have h2 : w + 1 < size := by omega
    simp [Doom.emitChars, ih (w + 1) (by omega), writesFrom, h2, Nat.add_assoc]

/-! ### The format-pointer only advances: parser suffix lemmas -/

theorem Qjs.qjs_parseFlags_suffix : ∀ (l : List Char) (f : Qjs.Flags),
    (Qjs.parseFlags f l).2 <:+ l := by
  intro l
  induction l with
  | nil => intro f; simp [Qjs.parseFlags]
  | cons c r ih =>
    intro f
    simp only [Qjs.parseFlags]
    split_ifs <;>
      first
        | exact (ih _).trans (List.suffix_cons c r)
        | exact List.suffix_refl _

theorem Qjs.qjs_parseDigits_suffix : ∀ (l : List Char) (a : Int),
    (Qjs.parseDigits a l).2 <:+ l := by
  intro l
  induction l with
  | nil => intro a; simp [Qjs.parseDigits]
  | cons c r ih =>
    intro a
    simp only [Qjs.parseDigits]
    split_ifs <;>
      first
        | exact (ih _).trans (List.suffix_cons c r)
        | exact List.suffix_refl _

theorem Qjs.qjs_parseWidth_suffix (args : List Arg) (l : List Char) :
    (Qjs.parseWidth args l).2.2 <:+ l := by
  match l with
  | [] => simp [Qjs.parseWidth]
  | c :: r =>
    simp only [Qjs.parseWidth]
    split_ifs
    · exact List.suffix_cons c r
    · exact Qjs.qjs_parseDigits_suffix (c :: r) 0

theorem Qjs.qjs_parsePrec_suffix (args : List Arg) (l : List Char) :
    (Qjs.parsePrec args l).2.2 <:+ l := by
  match l with
  | [] => simp [Qjs.parsePrec]
  | c :: r =>
    simp only [Qjs.parsePrec]
    split_ifs
    · match r with
      | [] => simp
      | c2 :: r2 =>
        simp only
        split_ifs
        · exact (List.suffix_cons c2 r2).trans (List.suffix_cons c (c2 :: r2))
        · exact (Qjs.qjs_parseDigits_suffix (c2 :: r2) 0).trans (List.suffix_cons c (c2 :: r2))
    · exact List.suffix_refl _

theorem Qjs.qjs_parseLen_suffix (l : List Char) :
    (Qjs.parseLen l).2 <:+ l := by
  match l with
  | [] => simp [Qjs.parseLen]
  | c :: r =>
    simp only [Qjs.parseLen]
    split_ifs
    · match r with
      | [] => simp
      | c2 :: r2 =>
        simp only
        split_ifs
        · exact (List.suffix_cons c2 r2).trans (List.suffix_cons c (c2 :: r2))
        · exact List.suffix_cons c (c2 :: r2)
    · exact List.suffix_cons c r
    · match r with
      | [] => simp
      | c2 :: r2 =>
        simp only
        split_ifs
        · exact (List.suffix_cons c2 r2).trans (List.suffix_cons c (c2 :: r2))
        · exact List.suffix_cons c (c2 :: r2)
    · exact List.suffix_refl _

theorem Doom.doom_parseFlags_suffix : ∀ (l : List Char) (zp la : Bool),
    (Doom.parseFlags zp la l).2 <:+ l := by
  intro l
  induction l with
  | nil => intro zp la; simp [Doom.parseFlags]
  | cons c r ih =>
    intro zp la
    simp only [Doom.parseFlags]
    split_ifs <;>
      first
        | exact (ih _ _).trans (List.suffix_cons c r)
        | exact List.suffix_refl _

theorem Doom.doom_parseDigits_suffix : ∀ (l : List Char) (a : Int),
    (Doom.parseDigits a l).2 <:+ l := by
  intro l
  induction l with
  | nil => intro a; simp [Doom.parseDigits]
  | cons c r ih =>
    intro a
    simp only [Doom.parseDigits]
    split_ifs <;>
      first
        | exact (ih _).trans (List.suffix_cons c r)
        | exact List.suffix_refl _

theorem Doom.doom_parseWidth_suffix (args : List Arg) (l : List Char) :
    (Doom.parseWidth args l).2.2 <:+ l := by
  match l with
  | [] => simp [Doom.parseWidth]
  | c :: r =>
    simp only [Doom.parseWidth]
    split_ifs
    · exact List.suffix_cons c r
    · exact Doom.doom_parseDigits_suffix (c :: r) 0

theorem Doom.doom_parsePrec_suffix (args : List Arg) (l : List Char) :
    (Doom.parsePrec args l).2.2 <:+ l := by
  match l with
  | [] => simp [Doom.parsePrec]
  | c :: r =>
    simp only [Doom.parsePrec]
    split_ifs
    · match r with
      | [] => simp
      | c2 :: r2 =>
        simp only
        split_ifs
        · exact (List.suffix_cons c2 r2).trans (List.suffix_cons c (c2 :: r2))
        · exact (Doom.doom_parseDigits_suffix (c2 :: r2) 0).trans (List.suffix_cons c (c2 :: r2))
    · exact List.suffix_refl _

theorem Doom.doom_parseLen_suffix (l : List Char) :
    (Doom.parseLen l).2 <:+ l := by
  match l with
  | [] => simp [Doom.parseLen]
  | c :: r =>
    simp only [Doom.parseLen]
    split_ifs
    · match r with
      | [] => simp
      | c2 :: r2 =>
        simp only
        split_ifs
        · exact (List.suffix_cons c2 r2).trans (List.suffix_cons c (c2 :: r2))
        · exact List.suffix_cons c (c2 :: r2)
    · match r with
      | [] => simp
      | c2 :: r2 =>
        simp only
        split_ifs
        · exact (List.suffix_cons c2 r2).trans (List.suffix_cons c (c2 :: r2))
        · exact List.suffix_cons c (c2 :: r2)
    · exact List.suffix_cons c r
    · exact List.suffix_refl _

/-! ### The quickjs variant touches caller memory only through `%n` -/

theorem Qjs.directive_effects (e : Nat) (rest : List Char) (args : List Arg) (out : Nat)
    (h : 'n' ∉ rest) : (Qjs.directive e rest args out).effects = [] := by
  have hsuf : (Qjs.parseLen (Qjs.parsePrec
      (Qjs.parseWidth args (Qjs.parseFlags Qjs.noFlags rest).2).2.1
      (Qjs.parseWidth args (Qjs.parseFlags Qjs.noFlags rest).2).2.2).2.2).2 <:+ rest :=
    (Qjs.qjs_parseLen_suffix _).trans ((Qjs.qjs_parsePrec_suffix _ _).trans
      ((Qjs.qjs_parseWidth_suffix _ _).trans (Qjs.qjs_parseFlags_suffix _ _)))
  unfold Qjs.directive
  rcases hr4 : (Qjs.parseLen (Qjs.parsePrec
      (Qjs.parseWidth args (Qjs.parseFlags Qjs.noFlags rest).2).2.1
      (Qjs.parseWidth args (Qjs.parseFlags Qjs.noFlags rest).2).2.2).2.2).2 with _ | ⟨cv, r5⟩
  · simp [hr4]
  · rw [hr4] at hsuf
    have hcv : cv ≠ 'n' := fun hEq => h (hsuf.subset (by simp [hEq]))
    simp only [hr4]
    split_ifs <;> simp_all

theorem Qjs.loop_effects : ∀ (n : Nat) (fmt : List Char), fmt.length ≤ n →
    ∀ (e out : Nat) (args : List Arg), 'n' ∉ fmt →
      (Qjs.loop e fmt args out).effects = [] := by
  intro n
  induction n with
  | zero =>
    intro fmt hlen e out args hn
    match fmt with
    | [] => simp [Qjs.loop]
  | succ n ih =>
    intro fmt hlen e out args hn
    match fmt with
    | [] => simp [Qjs.loop]
    | c :: rest =>
      have hn1 : 'n' ∉ rest := fun hm => hn (List.mem_cons_of_mem c hm)
      have hd := Qjs.directive_effects e rest args out hn1
      by_cases hco : out < e
      · by_cases hcp : c = '%'
        · by_cases hstop : (Qjs.directive e rest args out).stop
          · simp [Qjs.loop, hco, hcp, hstop, hd]
          · have hrec := ih (rest.drop (Qjs.directive e rest args out).consumed)
              (by simp only [List.length_cons] at hlen
                  have := List.length_drop (Qjs.directive e rest args out).consumed rest
                  omega)
              e (Qjs.directive e rest args out).out
              (Qjs.directive e rest args out).argsLeft
              (fun hm => hn1 (List.drop_subset _ rest hm))
            simp [Qjs.loop, hco, hcp, hstop, hd, hrec]
        · have hrec := ih rest (by simp only [List.length_cons] at hlen; omega)
            e (out + 1) args hn1
          simp [Qjs.loop, hco, hcp, hrec]
      · simp [Qjs.loop, hco]

/-! ### The doom variant's returned position ignores the capacity
(except in `%p`, where `pos` advances only on a successful store) -/

theorem Doom.format_int_out_indep (s₁ s₂ base : Nat) (v : Int) (nb : Nat) (uns : Bool)
    (w : Int) (zp : Bool) (prec : Int) :
    (Doom.format_int s₁ base v nb uns w zp prec).2 =
      (Doom.format_int s₂ base v nb uns w zp prec).2 := by
  unfold Doom.format_int
  simp [Doom.emitChars_out]

theorem Doom.directive_size_indep (s₁ s₂ : Nat) (rest : List Char) (args : List Arg)
    (pos : Nat) (h : 'p' ∉ rest) :
    (Doom.directive s₁ rest args pos).out = (Doom.directive s₂ rest args pos).out ∧
    (Doom.directive s₁ rest args pos).argsLeft = (Doom.directive s₂ rest args pos).argsLeft ∧
    (Doom.directive s₁ rest args pos).consumed = (Doom.directive s₂ rest args pos).consumed ∧
    (Doom.directive s₁ rest args pos).stop = (Doom.directive s₂ rest args pos).stop := by
  have hsuf : (Doom.parseLen (Doom.parsePrec
      (Doom.parseWidth args (Doom.parseFlags false false rest).2).2.1
      (Doom.parseWidth args (Doom.parseFlags false false rest).2).2.2).2.2).2 <:+ rest :=
    (Doom.doom_parseLen_suffix _).trans ((Doom.doom_parsePrec_suffix _ _).trans
      ((Doom.doom_parseWidth_suffix _ _).trans (Doom.doom_parseFlags_suffix _ _ _)))
  unfold Doom.directive
  rcases hr4 : (Doom.parseLen (Doom.parsePrec
      (Doom.parseWidth args (Doom.parseFlags false false rest).2).2.1
      (Doom.parseWidth args (Doom.parseFlags false false rest).2).2.2).2.2).2 with _ | ⟨cv, r5⟩
  · simp [hr4, Doom.emitAt_out]
  · rw [hr4] at hsuf
    have hcv : cv ≠ 'p' := fun hEq => h (hsuf.subset (by simp [hEq]))
    simp only [hr4]
    split_ifs <;>
      simp_all [Doom.emitAt_out, Doom.format_int_out_indep (Doom.subCap s₁ pos) (Doom.subCap s₂ pos)]

theorem Doom.loop_size_indep : ∀ (n : Nat) (fmt : List Char), fmt.length ≤ n →
    ∀ (s₁ s₂ pos : Nat) (args : List Arg), 'p' ∉ fmt →
      (Doom.loop s₁ fmt args pos).out = (Doom.loop s₂ fmt args pos).out := by
  intro n
  induction n with
  | zero =>
    intro fmt hlen s₁ s₂ pos args hp
    match fmt with
    | [] => simp [Doom.loop]
  | succ n ih =>
    intro fmt hlen s₁ s₂ pos args hp
    match fmt with
    | [] => simp [Doom.loop]
    | c :: rest =>
      have hp1 : 'p' ∉ rest := fun hm => hp (List.mem_cons_of_mem c hm)
      have hd := Doom.directive_size_indep s₁ s₂ rest args pos hp1
      by_cases hcp : c = '%'
      · by_cases hstop : (Doom.directive s₁ rest args pos).stop
        · have hstop2 : (Doom.directive s₂ rest args pos).stop := by rw [← hd.2.2.2]; exact hstop
          simp [Doom.loop, hcp, hstop, hstop2, hd.1]
        · have hstop2 : ¬ (Doom.directive s₂ rest args pos).stop := by rw [← hd.2.2.2]; exact hstop
          have hrec := ih (rest.drop (Doom.directive s₁ rest args pos).consumed)
            (by simp only [List.length_cons] at hlen
                have := List.length_drop (Doom.directive s₁ rest args pos).consumed rest
                omega)
            s₁ s₂ (Doom.directive s₁ rest args pos).out
            (Doom.directive s₁ rest args pos).argsLeft
            (fun hm => hp1 (List.drop_subset _ rest hm))
          simp only [Doom.loop, if_pos hcp, if_neg hstop, if_neg hstop2]
          rw [← hd.2.2.1, ← hd.2.1, ← hd.1] at *
          simp [hrec]
      · have hrec := ih rest (by simp only [List.length_cons] at hlen; omega)
          s₁ s₂ (pos + 1) args hp1
        simp [Doom.loop, hcp, hrec]

/-! ### Literal prefixes in the tcc variant -/

theorem Tcc.loop_literal_prefix : ∀ (base rest : List Char) (e out : Nat) (args : List Arg),
    '%' ∉ base → out + base.length ≤ e →
    Tcc.loop e (base ++ rest) args out =
      ⟨writesFrom out base ++ (Tcc.loop e rest args (out + base.length)).tr,
       (Tcc.loop e rest args (out + base.length)).out,
       (Tcc.loop e rest args (out + base.length)).argsLeft⟩ := by
  intro base
  induction base with
  | nil => intro rest e out args h hle; simp [writesFrom]
  | cons c b ih =>
    intro rest e out args h hle
    simp only [List.length_cons] at hle
    have hc : ¬ c = '%' := fun hEq => h (by simp [hEq])
    have hb : '%' ∉ b := fun hm => h (List.mem_cons_of_mem c hm)
    have hco : out < e := by omega
    simp only [List.cons_append, Tcc.loop, if_pos hco, if_neg hc]
    rw [ih rest e (out + 1) args hb (by omega)]
    simp [writesFrom, Nat.add_assoc, Nat.add_comm 1 b.length]

/-! ### Claim theorems -/

/-- Claim C1, counterexample: the quickjs variant returns the truncated
physical length, not the logical length: rendering `"%s"` with argument
`"hello"` into a buffer of capacity 3 returns 2, not 5. -/
theorem c1_counterexample :
    (Qjs.vsnprintf 3 ['%', 's'] [Arg.str (some ['h', 'e', 'l', 'l', 'o'])]).out = 2 ∧
    (Qjs.vsnprintf 3 ['%', 's'] [Arg.str (some ['h', 'e', 'l', 'l', 'o'])]).out ≠ 5 := by
  simp [Qjs.vsnprintf, Qjs.loop, Qjs.directive, Qjs.parseFlags, Qjs.parseWidth,
    Qjs.parsePrec, Qjs.parseLen, Qjs.parseDigits, Qjs.emit, Qjs.noFlags,
    takeStrArg, nullStr, spc, nulc]

/-- Claim C1 (amended): the doom variant's `vsnprintf` returns the
logical length — for any template whose directives include no `%p`, the
return value does not depend on the capacity (for capacities above 0),
and `render(buf, 3, "%s", ["hello"])` returns 5 while physically writing
only `"he"`; the quickjs variant instead returns the truncated physical
length (see the counterexample theorem above). -/
theorem c1_doom_returns_logical_length :
    (∀ (fmt : List Char) (args : List Arg) (s₁ s₂ : Nat),
        0 < s₁ → 0 < s₂ → 'p' ∉ fmt →
        (Doom.vsnprintf s₁ fmt args).out = (Doom.vsnprintf s₂ fmt args).out) ∧
    (Doom.vsnprintf 3 ['%', 's'] [Arg.str (some ['h', 'e', 'l', 'l', 'o'])]).out = 5 ∧
    (Doom.vsnprintf 3 ['%', 's'] [Arg.str (some ['h', 'e', 'l', 'l', 'o'])]).tr =
      [(0, 'h'), (1, 'e'), (2, nulc)] := by
  refine ⟨fun fmt args s₁ s₂ h₁ h₂ hp => ?_, ?_, ?_⟩
  · simp only [Doom.vsnprintf, if_neg (Nat.pos_iff_ne_zero.mp h₁),
      if_neg (Nat.pos_iff_ne_zero.mp h₂)]
    exact Doom.loop_size_indep fmt.length fmt le_rfl s₁ s₂ 0 args hp
  · simp [Doom.vsnprintf, Doom.loop, Doom.directive, Doom.parseFlags, Doom.parseWidth,
      Doom.parsePrec, Doom.parseLen, Doom.parseDigits, Doom.emitAt, Doom.subCap,
      takeStrArg, nullStr, spc, nulc]
  · simp [Doom.vsnprintf, Doom.loop, Doom.directive, Doom.parseFlags, Doom.parseWidth,
      Doom.parsePrec, Doom.parseLen, Doom.parseDigits, Doom.emitAt, Doom.subCap,
      takeStrArg, nullStr, spc, nulc]

/-- Witness for `c1_doom_returns_logical_length`: all hypotheses hold at
a concrete input. -/
theorem c1_witness :
    0 < 5 ∧ 0 < 9 ∧ 'p' ∉ ['a', 'b'] ∧
    (Doom.vsnprintf 5 ['a', 'b'] []).out = (Doom.vsnprintf 9 ['a', 'b'] []).out :=
  ⟨by decide, by decide, by decide,
    c1_doom_returns_logical_length.1 ['a', 'b'] [] 5 9 (by decide) (by decide) (by decide)⟩

/-- Claim C2: the sqlite variant violates the bound at capacity 0 — the
unconditional terminator store `*out = '\0'` writes the byte at index 0,
which is an index `≥ size`.  (The spec's §4.5/§7 zero-capacity rule and
the guards present in the other three variants mark this as a slip in
the code.) -/
theorem c2_sqlite_zero_capacity_writes :
    (Sqlite.vsnprintf 0 ['a', 'b'] []).tr = [(0, nulc)] := by
  simp [Sqlite.vsnprintf, Sqlite.loop]

/-- Claim C3, counterexample: a call with capacity 0 writes nothing in
the quickjs variant but returns 0, not the logical length 5 of
`"%s"` applied to `"hello"`. -/
theorem c3_counterexample :
    (Qjs.vsnprintf 0 ['%', 's'] [Arg.str (some ['h', 'e', 'l', 'l', 'o'])]).tr = [] ∧
    (Qjs.vsnprintf 0 ['%', 's'] [Arg.str (some ['h', 'e', 'l', 'l', 'o'])]).out = 0 ∧
    (Qjs.vsnprintf 0 ['%', 's'] [Arg.str (some ['h', 'e', 'l', 'l', 'o'])]).out ≠ 5 := by
  simp [Qjs.vsnprintf]

/-- Claim C3 (amended): at capacity 0 the quickjs and doom variants
write no byte and return 0 (not the logical length); the sqlite variant
writes a single terminator byte at index 0 and returns 0. -/
theorem c3_zero_capacity :
    ∀ (fmt : List Char) (args : List Arg),
      (Qjs.vsnprintf 0 fmt args).tr = [] ∧ (Qjs.vsnprintf 0 fmt args).out = 0 ∧
      (Doom.vsnprintf 0 fmt args).tr = [] ∧ (Doom.vsnprintf 0 fmt args).out = 0 ∧
      (Sqlite.vsnprintf 0 fmt args).tr = [(0, nulc)] ∧
      (Sqlite.vsnprintf 0 fmt args).out = 0 := by
  intro fmt args
  refine ⟨by simp [Qjs.vsnprintf], by simp [Qjs.vsnprintf], by simp [Doom.vsnprintf],
    by simp [Doom.vsnprintf], ?_, ?_⟩ <;>
    cases fmt <;> simp [Sqlite.vsnprintf, Sqlite.loop]

/-- Claim C4, counterexample: the quickjs variant puts the zero fill
before the minus sign: `"%05d"` applied to `-42` renders `"00-42"`,
not `"-0042"`. -/
theorem c4_counterexample :
    (Qjs.vsnprintf 8 ['%', '0', '5', 'd'] [Arg.int (-42)]).tr =
      [(0, '0'), (1, '0'), (2, '-'), (3, '4'), (4, '2'), (5, nulc)] ∧
    (Qjs.vsnprintf 8 ['%', '0', '5', 'd'] [Arg.int (-42)]).tr ≠
      [(0, '-'), (1, '0'), (2, '0'), (3, '4'), (4, '2'), (5, nulc)] := by
  have h : (Qjs.vsnprintf 8 ['%', '0', '5', 'd'] [Arg.int (-42)]).tr =
      [(0, '0'), (1, '0'), (2, '-'), (3, '4'), (4, '2'), (5, nulc)] := by
    simp [Qjs.vsnprintf, Qjs.loop, Qjs.directive, Qjs.parseFlags, Qjs.parseWidth,
      Qjs.parsePrec, Qjs.parseLen, Qjs.parseDigits, Qjs.emit, Qjs.noFlags,
      natDigitsRev, natDigitsRevGo, decChar, takeIntArg, spc, nulc]
  exact ⟨h, by rw [h]; decide⟩

/-- Claim C4 (amended): in the doom variant's `format_int` the claim
holds — for every negative value with the zero-pad flag, no precision,
and a width exceeding the content length, the minus sign is the leftmost
character of the field and the zero fill lies strictly between the sign
and the digits; `"%05d"` applied to `-42` renders `"-0042"`.  The
quickjs variant instead zero-fills before the sign
(see the counterexample theorem above). -/
theorem c4_doom_sign_before_zero_fill :
    (∀ (v width : Int) (size base : Nat),
        v < 0 →
        ((natDigitsRev digitLower 10 (-v).toNat).length + 1 : Int) < width →
        width.toNat < size →
        0 < (width - ((natDigitsRev digitLower 10 (-v).toNat).length + 1 : Int)).toNat ∧
        (Doom.format_int size base v 10 false width true (-1)).1 =
          writesFrom base
            ('-' :: (List.replicate
                (width - ((natDigitsRev digitLower 10 (-v).toNat).length + 1 : Int)).toNat '0' ++
              (natDigitsRev digitLower 10 (-v).toNat).reverse)) ∧
        (Doom.format_int size base v 10 false width true (-1)).2 = width.toNat) ∧
    (Doom.vsnprintf 10 ['%', '0', '5', 'd'] [Arg.int (-42)]).tr =
      [(0, '-'), (1, '0'), (2, '0'), (3, '4'), (4, '2'), (5, nulc)] ∧
    (Doom.vsnprintf 10 ['%', '0', '5', 'd'] [Arg.int (-42)]).out = 5 := by
  refine ⟨fun v width size base hv hw hs => ?_, ?_, ?_⟩
  · refine ⟨by omega, ?_⟩
    unfold Doom.format_int
    set L := natDigitsRev digitLower 10 (-v).toNat with hL
    have hd0 : ¬ ((L.length : Int) < -1) := by omega
    simp only [hv, and_true, Bool.false_eq_true, not_false_iff, if_true, if_pos, if_neg hd0]
    norm_num
    rw [← hL, if_pos hw]
    constructor
    · rw [Doom.emitChars_full]
      · norm_num
      · simp only [List.length_cons, List.length_append, List.length_replicate,
          List.length_reverse]
        omega
    · rw [Doom.emitChars_out]
      simp only [List.length_cons, List.length_append, List.length_replicate,
        List.length_reverse]
      omega
  · simp [Doom.vsnprintf, Doom.loop, Doom.directive, Doom.parseFlags, Doom.parseWidth,
      Doom.parsePrec, Doom.parseLen, Doom.parseDigits, Doom.format_int, Doom.emitChars,
      Doom.subCap, natDigitsRev, natDigitsRevGo, digitLower, takeIntArg, spc, nulc]
  · simp [Doom.vsnprintf, Doom.loop, Doom.directive, Doom.parseFlags, Doom.parseWidth,
      Doom.parsePrec, Doom.parseLen, Doom.parseDigits, Doom.format_int, Doom.emitChars,
      Doom.subCap, natDigitsRev, natDigitsRevGo, digitLower, takeIntArg, spc, nulc]

/-- Witness for `c4_doom_sign_before_zero_fill`: all hypotheses hold at
a concrete input. -/
theorem c4_witness :
    (-42 : Int) < 0 ∧
    ((natDigitsRev digitLower 10 (-(-42 : Int)).toNat).length + 1 : Int) < 5 ∧
    (5 : Int).toNat < 10 ∧
    (Doom.format_int 10 0 (-42) 10 false 5 true (-1)).2 = (5 : Int).toNat :=
  ⟨by decide, by decide, by decide,
    (c4_doom_sign_before_zero_fill.1 (-42) 5 10 0 (by decide) (by decide) (by decide)).2.2⟩

/-- Claim C5, counterexample: the quickjs variant ignores precision for
integer conversions entirely: `"%.3d"` applied to `5` renders `"5"`,
not `"005"`. -/
theorem c5_counterexample :
    (Qjs.vsnprintf 8 ['%', '.', '3', 'd'] [Arg.int 5]).tr = [(0, '5'), (1, nulc)] ∧
    (Qjs.vsnprintf 8 ['%', '.', '3', 'd'] [Arg.int 5]).tr ≠
      [(0, '0'), (1, '0'), (2, '5'), (3, nulc)] := by
  have h : (Qjs.vsnprintf 8 ['%', '.', '3', 'd'] [Arg.int 5]).tr = [(0, '5'), (1, nulc)] := by
    simp [Qjs.vsnprintf, Qjs.loop, Qjs.directive, Qjs.parseFlags, Qjs.parseWidth,
      Qjs.parsePrec, Qjs.parseLen, Qjs.parseDigits, Qjs.emit, Qjs.noFlags,
      natDigitsRev, natDigitsRevGo, decChar, takeIntArg, spc, nulc]
  exact ⟨h, by rw [h]; decide⟩

set_option maxRecDepth 4000 in
/-- Claim C5 (amended): in the doom variant the claim holds — an
explicit precision `p ≥ 0` on an integer conversion left-zero-pads the
digit string to at least `p` digits before field-width padding, and the
field fill is then a space rather than `'0'` even when the zero-pad
flag is set (the fill below is `spc` for every value of the `zp` flag);
`"%08.3d"` applied to `42` renders `"     042"`.  The quickjs variant
instead ignores precision for integer conversions
(see the counterexample theorem above). -/
theorem c5_doom_precision_zero_pads_digits :
    (∀ (v width prec : Int) (zp : Bool) (size base : Nat),
        0 ≤ v → v < (2 : Int) ^ 64 → 0 ≤ prec →
        width.toNat + prec.toNat + (natDigitsRev digitLower 10 v.toNat).length < size →
        ∃ fp dp : Nat,
          (Doom.format_int size base v 10 false width zp prec).1 =
            writesFrom base (List.replicate fp spc ++
              (List.replicate dp '0' ++ (natDigitsRev digitLower 10 v.toNat).reverse)) ∧
          (natDigitsRev digitLower 10 v.toNat).length + dp =
            max prec.toNat (natDigitsRev digitLower 10 v.toNat).length ∧
          (Doom.format_int size base v 10 false width zp prec).2 =
            fp + dp + (natDigitsRev digitLower 10 v.toNat).length) ∧
    (Doom.vsnprintf 12 ['%', '0', '8', '.', '3', 'd'] [Arg.int 42]).tr =
      [(0, spc), (1, spc), (2, spc), (3, spc), (4, spc), (5, '0'), (6, '4'), (7, '2'),
        (8, nulc)] ∧
    (Doom.vsnprintf 12 ['%', '0', '8', '.', '3', 'd'] [Arg.int 42]).out = 8 := by
  refine ⟨fun v width prec zp size base hv0 hv64 hp hs => ?_, ?_, ?_⟩
  · unfold Doom.format_int
    have hnneg : ¬ (v < 0) := by omega
    have hmod : v % ((2 : Int) ^ 64) = v := Int.emod_eq_of_lt hv0 hv64
    set L := natDigitsRev digitLower 10 v.toNat with hL
    simp only [hnneg, and_false, Bool.false_eq_true, false_and, if_neg, if_false,
      hmod, if_pos hp]
    norm_num
    rw [← hL]
    refine ⟨if ((L.length + (if (L.length : Int) < prec then (prec - L.length).toNat else 0) :
        Nat) : Int) < width then
          (width - ((L.length + (if (L.length : Int) < prec then (prec - L.length).toNat
            else 0) : Nat) : Int)).toNat else 0,
      if (L.length : Int) < prec then (prec - L.length).toNat else 0, ?_, ?_, ?_⟩
    · rw [Doom.emitChars_full]
      · norm_num
      · simp only [List.length_append, List.length_replicate, List.length_reverse]
        split_ifs <;> omega
    · split_ifs <;> omega
    · rw [Doom.emitChars_out]
      simp only [List.length_append, List.length_replicate, List.length_reverse]
      split_ifs <;> omega
  · simp [Doom.vsnprintf, Doom.loop, Doom.directive, Doom.parseFlags, Doom.parseWidth,
      Doom.parsePrec, Doom.parseLen, Doom.parseDigits, Doom.format_int, Doom.emitChars,
      Doom.subCap, natDigitsRev, natDigitsRevGo, digitLower, takeIntArg, spc, nulc]
  · simp [Doom.vsnprintf, Doom.loop, Doom.directive, Doom.parseFlags, Doom.parseWidth,
      Doom.parsePrec, Doom.parseLen, Doom.parseDigits, Doom.format_int, Doom.emitChars,
      Doom.subCap, natDigitsRev, natDigitsRevGo, digitLower, takeIntArg, spc, nulc]

/-- Witness for `c5_doom_precision_zero_pads_digits`: all hypotheses
hold at a concrete input. -/
theorem c5_witness :
    (0 : Int) ≤ 42 ∧ (42 : Int) < (2 : Int) ^ 64 ∧ (0 : Int) ≤ 3 ∧
    (8 : Int).toNat + (3 : Int).toNat + (natDigitsRev digitLower 10 (42 : Int).toNat).length < 16 ∧
    ∃ fp dp : Nat,
      (Doom.format_int 16 0 42 10 false 8 true 3).1 =
        writesFrom 0 (List.replicate fp spc ++
          (List.replicate dp '0' ++ (natDigitsRev digitLower 10 (42 : Int).toNat).reverse)) ∧
      (natDigitsRev digitLower 10 (42 : Int).toNat).length + dp =
        max (3 : Int).toNat (natDigitsRev digitLower 10 (42 : Int).toNat).length ∧
      (Doom.format_int 16 0 42 10 false 8 true 3).2 =
        fp + dp + (natDigitsRev digitLower 10 (42 : Int).toNat).length :=
  ⟨by decide, by decide, by decide, by decide,
    c5_doom_precision_zero_pads_digits.1 42 8 3 true 16 0 (by decide) (by decide)
      (by decide) (by decide)⟩

/-- Claim C6, counterexample: the doom variant renders an unrecognized
conversion as the bare character, not as `'%'` followed by the
character: `"%q"` renders `"q"` (the argument is still not consumed). -/
theorem c6_counterexample :
    (Doom.vsnprintf 8 ['%', 'q'] [Arg.int 7]).tr = [(0, 'q'), (1, nulc)] ∧
    (Doom.vsnprintf 8 ['%', 'q'] [Arg.int 7]).argsLeft = [Arg.int 7] ∧
    (Doom.vsnprintf 8 ['%', 'q'] [Arg.int 7]).tr ≠ [(0, '%'), (1, 'q'), (2, nulc)] := by
  have h : (Doom.vsnprintf 8 ['%', 'q'] [Arg.int 7]).tr = [(0, 'q'), (1, nulc)] := by
    simp [Doom.vsnprintf, Doom.loop, Doom.directive, Doom.parseFlags, Doom.parseWidth,
      Doom.parsePrec, Doom.parseLen, Doom.parseDigits, Doom.emitAt, spc, nulc]
  refine ⟨h, ?_, by rw [h]; decide⟩
  simp [Doom.vsnprintf, Doom.loop, Doom.directive, Doom.parseFlags, Doom.parseWidth,
    Doom.parsePrec, Doom.parseLen, Doom.parseDigits, Doom.emitAt, spc, nulc]

/-- Claim C6 (amended): for every conversion character that is not a
flag, digit, width/precision marker, length modifier, or recognized
conversion, the quickjs variant renders the two raw characters `'%'`
followed by the character and consumes no argument; the doom variant
also consumes no argument but renders only the bare character
(see the counterexample theorem above). -/
theorem c6_unrecognized_passthrough :
    ∀ (ch : Char) (args : List Arg),
      ¬ ('0' ≤ ch ∧ ch ≤ '9') →
      ch ∉ ['-', '+', spc, '#', '*', '.', 'l', 'z', 'h', 's', 'd', 'i', 'u', 'x', 'X',
            'p', 'c', 'f', 'F', 'e', 'E', 'g', 'G', '%', 'n'] →
      ((Qjs.vsnprintf 4 ['%', ch] args).tr = [(0, '%'), (1, ch), (2, nulc)] ∧
       (Qjs.vsnprintf 4 ['%', ch] args).out = 2 ∧
       (Qjs.vsnprintf 4 ['%', ch] args).argsLeft = args) ∧
      ((Doom.vsnprintf 4 ['%', ch] args).tr = [(0, ch), (1, nulc)] ∧
       (Doom.vsnprintf 4 ['%', ch] args).out = 1 ∧
       (Doom.vsnprintf 4 ['%', ch] args).argsLeft = args) := by
  intro ch args h1 h2
  have h0 : ch ≠ '0' := fun hEq => h1 (by rw [hEq]; exact ⟨by decide, by decide⟩)
  simp only [List.mem_cons, List.mem_singleton, not_or] at h2
  constructor
  · simp [Qjs.vsnprintf, Qjs.loop, Qjs.directive, Qjs.parseFlags, Qjs.parseWidth,
      Qjs.parsePrec, Qjs.parseLen, Qjs.parseDigits, Qjs.emit, Qjs.noFlags,
      h0, h1, h2]
  · simp [Doom.vsnprintf, Doom.loop, Doom.directive, Doom.parseFlags, Doom.parseWidth,
      Doom.parsePrec, Doom.parseLen, Doom.parseDigits, Doom.emitAt,
      h0, h1, h2]

/-- Witness for `c6_unrecognized_passthrough`: all hypotheses hold at a
concrete input. -/
theorem c6_witness :
    ¬ ('0' ≤ 'q' ∧ 'q' ≤ '9') ∧
    'q' ∉ ['-', '+', spc, '#', '*', '.', 'l', 'z', 'h', 's', 'd', 'i', 'u', 'x', 'X',
           'p', 'c', 'f', 'F', 'e', 'E', 'g', 'G', '%', 'n'] ∧
    (Qjs.vsnprintf 4 ['%', 'q'] [Arg.int 7]).tr = [(0, '%'), (1, 'q'), (2, nulc)] :=
  ⟨by decide, by decide,
    ((c6_unrecognized_passthrough 'q' [Arg.int 7] (by decide) (by decide)).1).1⟩

/-- Claim C7, counterexample: the sqlite variant does not parse
precision at all: `"%.2s"` applied to `"hello"` renders the characters
`"%.2s"` themselves (and does not consume the argument), not `"he"`. -/
theorem c7_counterexample :
    (Sqlite.vsnprintf 10 ['%', '.', '2', 's'] [Arg.str (some ['h', 'e', 'l', 'l', 'o'])]).tr =
      [(0, '%'), (1, '.'), (2, '2'), (3, 's'), (4, nulc)] ∧
    (Sqlite.vsnprintf 10 ['%', '.', '2', 's'] [Arg.str (some ['h', 'e', 'l', 'l', 'o'])]).argsLeft =
      [Arg.str (some ['h', 'e', 'l', 'l', 'o'])] ∧
    (Sqlite.vsnprintf 10 ['%', '.', '2', 's'] [Arg.str (some ['h', 'e', 'l', 'l', 'o'])]).tr ≠
      [(0, 'h'), (1, 'e'), (2, nulc)] := by
  have h : (Sqlite.vsnprintf 10 ['%', '.', '2', 's']
      [Arg.str (some ['h', 'e', 'l', 'l', 'o'])]).tr =
      [(0, '%'), (1, '.'), (2, '2'), (3, 's'), (4, nulc)] := by
    simp [Sqlite.vsnprintf, Sqlite.loop, Sqlite.directive, Sqlite.parseFlag,
      Sqlite.parseDigits, Sqlite.parseLen, Sqlite.emit, spc, nulc]
  refine ⟨h, ?_, by rw [h]; decide⟩
  simp [Sqlite.vsnprintf, Sqlite.loop, Sqlite.directive, Sqlite.parseFlag,
    Sqlite.parseDigits, Sqlite.parseLen, Sqlite.emit, spc, nulc]

/-- Claim C7 (amended): in the quickjs variant the claim holds — for
every source string, `"%.2s"` copies at most 2 characters (exactly
`min 2 (length)`: a maximum, never a minimum); the sqlite variant does
not support precision and passes the directive through literally
(see the counterexample theorem above). -/
theorem c7_qjs_precision_caps_string :
    ∀ (s : List Char),
      (Qjs.vsnprintf 4 ['%', '.', '2', 's'] [Arg.str (some s)]).tr =
        writesFrom 0 (s.take 2) ++ [(min 2 s.length, nulc)] ∧
      (Qjs.vsnprintf 4 ['%', '.', '2', 's'] [Arg.str (some s)]).out = min 2 s.length ∧
      (Qjs.vsnprintf 4 ['%', '.', '2', 's'] [Arg.str (some s)]).argsLeft = [] := by
  intro s
  rcases s with _ | ⟨a, _ | ⟨b, r⟩⟩
  · simp [Qjs.vsnprintf, Qjs.loop, Qjs.directive, Qjs.parseFlags, Qjs.parseWidth,
      Qjs.parsePrec, Qjs.parseLen, Qjs.parseDigits, Qjs.emit, Qjs.noFlags,
      takeStrArg, nullStr, writesFrom, spc, nulc]
  · simp [Qjs.vsnprintf, Qjs.loop, Qjs.directive, Qjs.parseFlags, Qjs.parseWidth,
      Qjs.parsePrec, Qjs.parseLen, Qjs.parseDigits, Qjs.emit, Qjs.noFlags,
      takeStrArg, nullStr, writesFrom, spc, nulc]
  · by_cases hc : (2 : Int) < (r.length : Int) + 1 + 1
    · simp [Qjs.vsnprintf, Qjs.loop, Qjs.directive, Qjs.parseFlags, Qjs.parseWidth,
        Qjs.parsePrec, Qjs.parseLen, Qjs.parseDigits, Qjs.emit, Qjs.noFlags,
        takeStrArg, nullStr, writesFrom, hc, spc, nulc]
    · have hr : r = [] := by
        have : r.length = 0 := by omega
        exact List.length_eq_zero.mp this
      subst hr
      simp [Qjs.vsnprintf, Qjs.loop, Qjs.directive, Qjs.parseFlags, Qjs.parseWidth,
        Qjs.parsePrec, Qjs.parseLen, Qjs.parseDigits, Qjs.emit, Qjs.noFlags,
        takeStrArg, nullStr, writesFrom, hc, spc, nulc]

/-- Claim C8, counterexample: on a template ending in a lone `'%'`, the
quickjs variant does not render a single literal `'%'` — it emits `'%'`
followed by a NUL content byte (logical length 3, not 2), and the
unconditional `format++` then reads past the template's terminator
(`oob`). -/
theorem c8_counterexample :
    (Qjs.vsnprintf 8 ['a', '%'] []).oob = true ∧
    (Qjs.vsnprintf 8 ['a', '%'] []).tr = [(0, 'a'), (1, '%'), (2, nulc), (3, nulc)] ∧
    (Qjs.vsnprintf 8 ['a', '%'] []).out = 3 := by
  refine ⟨?_, ?_, ?_⟩ <;>
    simp [Qjs.vsnprintf, Qjs.loop, Qjs.directive, Qjs.parseFlags, Qjs.parseWidth,
      Qjs.parsePrec, Qjs.parseLen, Qjs.parseDigits, Qjs.emit, Qjs.noFlags, spc, nulc]

/-- Claim C8 (amended): in the tcc variant the claim holds — for every
template consisting of literal text followed by a lone trailing `'%'`,
the trailing `'%'` is rendered as a single literal `'%'`, no partial
directive is pending, no argument is consumed, and the run never reads
past the template.  The quickjs variant instead emits `'%'` plus a NUL
byte and reads past the terminator (see the counterexample theorem above), and the doom
variant emits a lone NUL byte. -/
theorem c8_trailing_percent :
    (∀ (base : List Char) (args : List Arg) (cap : Nat),
        '%' ∉ base → base.length + 2 ≤ cap →
        (Tcc.vsnprintf cap (base ++ ['%']) args).tr =
          writesFrom 0 (base ++ ['%']) ++ [(base.length + 1, nulc)] ∧
        (Tcc.vsnprintf cap (base ++ ['%']) args).out = base.length + 1 ∧
        (Tcc.vsnprintf cap (base ++ ['%']) args).argsLeft = args) ∧
    (∀ args : List Arg, (Doom.vsnprintf 4 ['%'] args).tr = [(0, nulc), (1, nulc)] ∧
        (Doom.vsnprintf 4 ['%'] args).out = 1 ∧
        (Doom.vsnprintf 4 ['%'] args).argsLeft = args) ∧
    (∀ args : List Arg, (Qjs.vsnprintf 4 ['%'] args).oob = true ∧
        (Qjs.vsnprintf 4 ['%'] args).tr = [(0, '%'), (1, nulc), (2, nulc)] ∧
        (Qjs.vsnprintf 4 ['%'] args).out = 2 ∧
        (Qjs.vsnprintf 4 ['%'] args).argsLeft = args) := by
  refine ⟨fun base args cap hb hcap => ?_, fun args => ?_, fun args => ?_⟩
  · have hz : ¬ cap = 0 := by omega
    have hlt : base.length < cap - 1 := by omega
    unfold Tcc.vsnprintf
    rw [if_neg hz, Tcc.loop_literal_prefix base ['%'] (cap - 1) 0 args hb (by omega)]
    simp [Tcc.loop, Tcc.directive, Tcc.parseFlags, Tcc.parseWidth, Tcc.parsePrec,
      Tcc.parseLen, Tcc.parseDigits, Tcc.emit, hlt, writesFrom_append, writesFrom,
      spc, nulc]
  · simp [Doom.vsnprintf, Doom.loop, Doom.directive, Doom.parseFlags, Doom.parseWidth,
      Doom.parsePrec, Doom.parseLen, Doom.parseDigits, Doom.emitAt, spc, nulc]
  · simp [Qjs.vsnprintf, Qjs.loop, Qjs.directive, Qjs.parseFlags, Qjs.parseWidth,
      Qjs.parsePrec, Qjs.parseLen, Qjs.parseDigits, Qjs.emit, Qjs.noFlags, spc, nulc]

/-- Witness for `c8_trailing_percent`: all hypotheses hold at a
concrete input. -/
theorem c8_witness :
    '%' ∉ ['a'] ∧ (['a'] : List Char).length + 2 ≤ 8 ∧
    (Tcc.vsnprintf 8 (['a'] ++ ['%']) []).out = (['a'] : List Char).length + 1 :=
  ⟨by decide, by decide,
    (c8_trailing_percent.1 ['a'] [] 8 (by decide) (by decide)).2.1⟩

/-- Claim C9: a NULL string argument renders as the fixed placeholder
text `"(null)"` in the quickjs and tcc variants: the model substitutes
the placeholder before any character of the source string is read, so
the null pointer is never dereferenced, and the run completes
normally. -/
theorem c9_null_string_placeholder :
    ∀ (args : List Arg),
      ((Qjs.vsnprintf 8 ['%', 's'] (Arg.str none :: args)).tr =
          writesFrom 0 nullStr ++ [(6, nulc)] ∧
        (Qjs.vsnprintf 8 ['%', 's'] (Arg.str none :: args)).out = 6 ∧
        (Qjs.vsnprintf 8 ['%', 's'] (Arg.str none :: args)).argsLeft = args) ∧
      ((Tcc.vsnprintf 8 ['%', 's'] (Arg.str none :: args)).tr =
          writesFrom 0 nullStr ++ [(6, nulc)] ∧
        (Tcc.vsnprintf 8 ['%', 's'] (Arg.str none :: args)).out = 6 ∧
        (Tcc.vsnprintf 8 ['%', 's'] (Arg.str none :: args)).argsLeft = args) := by
  intro args
  constructor
  · simp [Qjs.vsnprintf, Qjs.loop, Qjs.directive, Qjs.parseFlags, Qjs.parseWidth,
      Qjs.parsePrec, Qjs.parseLen, Qjs.parseDigits, Qjs.emit, Qjs.noFlags,
      takeStrArg, nullStr, writesFrom, spc, nulc]
  · simp [Tcc.vsnprintf, Tcc.loop, Tcc.directive, Tcc.parseFlags, Tcc.parseWidth,
      Tcc.parsePrec, Tcc.parseLen, Tcc.parseDigits, Tcc.emit,
      takeStrArg, nullStr, writesFrom, spc, nulc]

/-- Claim C10: the quickjs variant's `%n` pulls an `int *` argument and
stores through it the number of bytes emitted so far (`"ab%n"` stores
2), and this is the only directive that writes to caller memory other
than the destination buffer: a template without `'n'` produces no such
store. -/
theorem c10_qjs_percent_n :
    (Qjs.vsnprintf 8 ['a', 'b', '%', 'n'] [Arg.intPtr 7]).effects = [(7, 2)] ∧
    (Qjs.vsnprintf 8 ['a', 'b', '%', 'n'] [Arg.intPtr 7]).tr =
      [(0, 'a'), (1, 'b'), (2, nulc)] ∧
    (Qjs.vsnprintf 8 ['a', 'b', '%', 'n'] [Arg.intPtr 7]).out = 2 ∧
    (∀ (size : Nat) (fmt : List Char) (args : List Arg), 'n' ∉ fmt →
      (Qjs.vsnprintf size fmt args).effects = []) := by
  refine ⟨?_, ?_, ?_, fun size fmt args hn => ?_⟩
  · simp [Qjs.vsnprintf, Qjs.loop, Qjs.directive, Qjs.parseFlags, Qjs.parseWidth,
      Qjs.parsePrec, Qjs.parseLen, Qjs.parseDigits, Qjs.emit, Qjs.noFlags,
      takeIntPtrArg, spc, nulc]
  · simp [Qjs.vsnprintf, Qjs.loop, Qjs.directive, Qjs.parseFlags, Qjs.parseWidth,
      Qjs.parsePrec, Qjs.parseLen, Qjs.parseDigits, Qjs.emit, Qjs.noFlags,
      takeIntPtrArg, spc, nulc]
  · simp [Qjs.vsnprintf, Qjs.loop, Qjs.directive, Qjs.parseFlags, Qjs.parseWidth,
      Qjs.parsePrec, Qjs.parseLen, Qjs.parseDigits, Qjs.emit, Qjs.noFlags,
      takeIntPtrArg, spc, nulc]
  · unfold Qjs.vsnprintf
    by_cases hz : size = 0
    · simp [hz]
    · rw [if_neg hz]
      show (Qjs.loop (size - 1) fmt args 0).effects = []
      exact Qjs.loop_effects fmt.length fmt le_rfl (size - 1) 0 args hn

/-- Witness for `c10_qjs_percent_n`: the hypothesis of its universal
part holds at a concrete input. -/
theorem c10_witness :
    'n' ∉ ['a', 'b'] ∧ (Qjs.vsnprintf 8 ['a', 'b'] []).effects = [] :=
  ⟨by decide, c10_qjs_percent_n.2.2.2 8 ['a', 'b'] [] (by decide)⟩
